import Mathlib

/-!
# Verification of the multi-agent ERP orchestration simulation engine

Shallow embedding of the discrete-event simulation in
`src/simulation_main.py` and `src/stress_test.py`: the three process
models (Monolithic, RPA, MAS), the arrival generator, the FIFO resource
pool, the episode statistics accumulator and the replication aggregator.

Simulated time and stochastic draws are rational numbers passed in
explicitly: each `random.uniform` / `random.random` / `random.expovariate`
call of the Python source becomes one explicit parameter, in the order the
source draws them.  Resource-grant instants (the resumption times of
`yield req`) are likewise explicit parameters, constrained by hypotheses
where a claim needs them.
-/

namespace ErpSim

/-- `SIM_TIME = 1000` (simulation_main.py line 11). -/
def SIM_TIME : ℚ := 1000

/-- `NUM_EPISODES = 50` (simulation_main.py line 12). -/
def NUM_EPISODES : ℕ := 50

/-- `ARRIVAL_RATE = 5` (simulation_main.py line 13, commented "Poisson lambda"). -/
def ARRIVAL_RATE : ℚ := 5

/-- `RESOURCES = 10` (simulation_main.py line 14). -/
def RESOURCES : ℕ := 10

/-- `FAILURE_PROB = 0.10` (simulation_main.py line 15). -/
def FAILURE_PROB : ℚ := 1 / 10

/-- The `Order` object (simulation_main.py lines 22-30).  The `env` back
reference is dropped; `value` is the `random.uniform(100, 5000)` draw,
passed in explicitly. -/
structure Order where
  id : ℕ
  arrival_time : ℚ
  value : ℚ
  is_error : Bool
  start_process_time : ℚ
  end_process_time : ℚ
deriving DecidableEq, Repr

/-- `Order.__init__`: created at `env.now` with `is_error = False` and both
process timestamps `0`.  `v` is the uniform value draw. -/
def newOrder (oid : ℕ) (now v : ℚ) : Order :=
  { id := oid, arrival_time := now, value := v, is_error := false
    start_process_time := 0, end_process_time := 0 }

/-- The `stats` dictionary `{'completed': 0, 'errors': 0, 'cycle_times': []}`
(simulation_main.py line 138). -/
structure Stats where
  completed : ℕ
  errors : ℕ
  cycle_times : List ℚ
deriving DecidableEq, Repr

/-- The fresh accumulator built by `run_simulation`. -/
def initStats : Stats := { completed := 0, errors := 0, cycle_times := [] }

/-!
## Process models

Each Python generator function mutates `order` and `stats`; the embedding
returns the updated pair.  Draw parameters appear in source order.
-/

/-- `monolithic_process` (simulation_main.py lines 33-59).
`g` is the simulated time at which the single shared pool grants the slot
(`yield req` resumes; the request is issued at `order.arrival_time`, so any
episode satisfies `order.arrival_time ≤ g`).  `d1` is the Credit stage
duration draw `uniform(5,15)`, `f` the `random.random()` failure draw,
`d2 d3 d4` the Inventory/Fulfillment/Billing draws `uniform(3,8)`,
`uniform(5,12)`, `uniform(2,5)`.  The returned `Bool` records that the
`with resource.request()` block released the slot on exit (true on every
path).  On the failure branch the source executes `stats['errors'] += 0`
and returns; on success it stamps `end_process_time`, increments
`completed` and appends the cycle time `end_process_time - arrival_time`. -/
def monolithic_process (o : Order) (g d1 f d2 d3 d4 : ℚ) (s : Stats) :
    Order × Stats × Bool :=
  let o := { o with start_process_time := g }
  if f < FAILURE_PROB then
    (o, { s with errors := s.errors + 0 }, true)
  else
    let o := { o with end_process_time := g + d1 + d2 + d3 + d4 }
    (o,
     { s with
        completed := s.completed + 1
        cycle_times := s.cycle_times ++ [o.end_process_time - o.arrival_time] },
     true)

/-- `rpa_process` (simulation_main.py lines 62-93).
`start_process_time` is stamped at function entry, which the scheduler runs
at the order's arrival instant.  `g1..g4` are the grant instants of the four
dedicated pools (credit, inventory, fulfillment, billing), `d1..d4` the
stage draws `uniform(4,10)`, `uniform(2,6)`, `uniform(4,10)`, `uniform(1,4)`,
`f` the failure draw checked after the credit stage.  A failed credit check
returns immediately (releasing only the credit pool); otherwise the three
remaining stages run sequentially and `end_process_time = g4 + d4`. -/
def rpa_process (o : Order) (g1 d1 f g2 d2 g3 d3 g4 d4 : ℚ) (s : Stats) :
    Order × Stats :=
  let o := { o with start_process_time := o.arrival_time }
  if f < FAILURE_PROB then
    (o, s)
  else
    let o := { o with end_process_time := g4 + d4 }
    (o,
     { s with
        completed := s.completed + 1
        cycle_times := s.cycle_times ++ [o.end_process_time - o.arrival_time] })

/-- `mas_process` (simulation_main.py lines 96-133).
`g1` is the credit-pool grant instant, `d1` the credit draw `uniform(6,12)`,
`f` the failure draw, `f2` the optimistic-override draw compared with `0.60`
(drawn only when `f < FAILURE_PROB`; a parameter here on every path, unused
otherwise), `d2` the combined pipelined draw `uniform(5,10)`.
On `f < FAILURE_PROB`: with `f2 < 0.60` the order is pushed through with
`is_error = True`, otherwise it is rejected (plain return).  Every
non-rejected order then advances `d2`, stamps `end_process_time = g1+d1+d2`,
increments `errors` and `completed` (dirty) or just `completed` (clean), and
appends its cycle time. -/
def mas_process (o : Order) (g1 d1 f f2 d2 : ℚ) (s : Stats) : Order × Stats :=
  let o := { o with start_process_time := o.arrival_time }
  if f < FAILURE_PROB ∧ ¬ f2 < 3 / 5 then
    (o, s)
  else
    let o := if f < FAILURE_PROB ∧ f2 < 3 / 5 then { o with is_error := true } else o
    let o := { o with end_process_time := g1 + d1 + d2 }
    let s :=
      if o.is_error then
        { s with errors := s.errors + 1, completed := s.completed + 1 }
      else
        { s with completed := s.completed + 1 }
    (o, { s with cycle_times := s.cycle_times ++ [o.end_process_time - o.arrival_time] })

/-!
## Arrival generator

`order_generator` (simulation_main.py lines 154-166, stress_test.py lines
92-103) sleeps `random.expovariate(1.0 / rate)` between orders.  CPython's
`random.expovariate(lambd)` returns `-log(1.0 - random()) / lambd`, an
exponential of mean `1 / lambd`; logarithms force ℝ here. -/

/-- CPython `random.expovariate(lambd)` applied to the uniform draw
`u = random()`. -/
noncomputable def expovariate (lambd u : ℝ) : ℝ := -Real.log (1 - u) / lambd

/-- The inter-arrival gap drawn by `order_generator`:
`random.expovariate(1.0 / rate)` with `rate` the arrival-rate parameter
(`ARRIVAL_RATE`, or `current_arrival_rate` in the stress test). -/
noncomputable def inter_arrival_gap (rate u : ℝ) : ℝ := expovariate (1 / rate) u

/-- Modelled from the spec: an inter-arrival gap that is "a draw from an
exponential distribution with mean `1/λ`", i.e. `expovariate λ` in CPython
terms.  Stated only to compare with `inter_arrival_gap` above. -/
noncomputable def spec_inter_arrival_gap (rate u : ℝ) : ℝ := expovariate rate u

/-!
## Episode-runner resource setup and replication aggregator
-/

/-- Python `int(q)`: truncation toward zero. -/
def pyInt (q : ℚ) : ℤ := if q < 0 then ⌈q⌉ else ⌊q⌋

/-- `np.mean` on a list of rationals (sum divided by length). -/
def npMean (xs : List ℚ) : ℚ := xs.sum / xs.length

/-- The per-stage pool capacity `int(RESOURCES/4) + 1` used for the four
RPA/MAS pools (simulation_main.py lines 147-150), as a function of the
configured worker count `R`; `int(R/4)` truncates the exact quotient of
nonnegative numbers, i.e. `⌊R/4⌋`. -/
def stage_pool_capacity (R : ℕ) : ℕ := R / 4 + 1

/-- The dictionary of four dedicated pools built by `run_simulation` for the
non-Monolithic modes, as (name, capacity) pairs. -/
def run_simulation_pools (R : ℕ) : List (String × ℕ) :=
  [("credit", stage_pool_capacity R), ("inventory", stage_pool_capacity R),
   ("fulfillment", stage_pool_capacity R), ("billing", stage_pool_capacity R)]

/-- The `mode` argument of `run_simulation`. -/
inductive Mode where
  | Monolithic
  | RPA
  | MAS
deriving DecidableEq, Repr

/-- Modelled from the spec: constructing a resource pool.  The repository
itself contains no pool implementation (it calls `simpy.Resource`, an
external library whose constructor rejects a non-positive capacity); the
spec (§3) fixes `capacity` as a positive integer.  Returns the capacity on
success. -/
def mkResource (cap : ℤ) : Except String ℤ :=
  if cap ≤ 0 then Except.error "capacity must be positive" else Except.ok cap

/-- The construction phase of `run_simulation` (simulation_main.py lines
136-151, stress_test.py lines 79-90): fresh stats, then either one shared
pool of capacity `R` or four dedicated pools of capacity `int(R/4) + 1`.
The arrival-rate argument is faithfully threaded but — exactly as in the
source — never examined during construction (it is first used inside
`order_generator` during the run).  No other validation exists in the
source. -/
def run_simulation_setup (mode : Mode) (R : ℤ) (rate : ℚ) : Except String (List ℤ) :=
  match mode with
  | Mode.Monolithic => do
      let r ← mkResource R
      pure [r]
  | _ => do
      let c1 ← mkResource (pyInt ((R : ℚ) / 4) + 1)
      let c2 ← mkResource (pyInt ((R : ℚ) / 4) + 1)
      let c3 ← mkResource (pyInt ((R : ℚ) / 4) + 1)
      let c4 ← mkResource (pyInt ((R : ℚ) / 4) + 1)
      pure [c1, c2, c3, c4]

/-- Per-episode error rate contributed to `agg_error` (simulation_main.py
lines 193-197): `errors/completed * 100` when `completed > 0`, else `0`. -/
def episode_error_rate (s : Stats) : ℚ :=
  if 0 < s.completed then ((s.errors : ℚ) / s.completed) * 100 else 0

/-- Per-episode cycle-time contribution to `agg_cycle` (simulation_main.py
lines 187-190): `np.mean(cycle_times)` when the list is non-empty
(Python truthiness of `s['cycle_times']`), else `0`. -/
def episode_cycle_contrib (s : Stats) : ℚ :=
  if s.cycle_times = [] then 0 else npMean s.cycle_times

/-- The `Throughput` field of a result row:
`int(np.mean(agg_throughput))` (simulation_main.py line 200, stress_test.py
line 141), where `agg_throughput` collects each episode's `completed`. -/
def throughput_field (counts : List ℕ) : ℤ :=
  pyInt (npMean (counts.map fun c : ℕ => (c : ℚ)))

/-!
## Episode traces

The only statements mutating `stats` sit inside the three process
functions, between two suspension points (no `yield` separates the
increment from the append), so under the single-threaded cooperative
scheduler each terminal transition is atomic.  An episode's statistics are
therefore the fold of the per-order process functions, in the order their
terminal transitions fire, over the fresh accumulator. -/

/-- The per-order data of one Monolithic process instance: arrival time,
value draw, grant instant and the five stochastic draws. -/
structure MonoArrival where
  oid : ℕ
  a : ℚ
  v : ℚ
  g : ℚ
  d1 : ℚ
  f : ℚ
  d2 : ℚ
  d3 : ℚ
  d4 : ℚ
deriving DecidableEq, Repr

/-- Stats effect of one Monolithic order. -/
def monoStep (s : Stats) (p : MonoArrival) : Stats :=
  (monolithic_process (newOrder p.oid p.a p.v) p.g p.d1 p.f p.d2 p.d3 p.d4 s).2.1

/-- Episode statistics of a Monolithic episode whose terminal transitions
fire in the order of the list. -/
def monoEpisode (s : Stats) : List MonoArrival → Stats
  | [] => s
  | p :: rest => monoEpisode (monoStep s p) rest

/-- The per-order data of one RPA process instance. -/
structure RpaArrival where
  oid : ℕ
  a : ℚ
  v : ℚ
  g1 : ℚ
  d1 : ℚ
  f : ℚ
  g2 : ℚ
  d2 : ℚ
  g3 : ℚ
  d3 : ℚ
  g4 : ℚ
  d4 : ℚ
deriving DecidableEq, Repr

/-- Stats effect of one RPA order. -/
def rpaStep (s : Stats) (p : RpaArrival) : Stats :=
  (rpa_process (newOrder p.oid p.a p.v) p.g1 p.d1 p.f p.g2 p.d2 p.g3 p.d3 p.g4 p.d4 s).2

/-- Episode statistics of an RPA episode. -/
def rpaEpisode (s : Stats) : List RpaArrival → Stats
  | [] => s
  | p :: rest => rpaEpisode (rpaStep s p) rest

/-- The per-order data of one MAS process instance. -/
structure MasArrival where
  oid : ℕ
  a : ℚ
  v : ℚ
  g1 : ℚ
  d1 : ℚ
  f : ℚ
  f2 : ℚ
  d2 : ℚ
deriving DecidableEq, Repr

/-- Stats effect of one MAS order. -/
def masStep (s : Stats) (p : MasArrival) : Stats :=
  (mas_process (newOrder p.oid p.a p.v) p.g1 p.d1 p.f p.f2 p.d2 s).2

/-- Episode statistics of a MAS episode. -/
def masEpisode (s : Stats) : List MasArrival → Stats
  | [] => s
  | p :: rest => masEpisode (masStep s p) rest

/-!
## FIFO resource pool

Modelled from the spec: the pool implementation is `simpy.Resource`, an
external library, not repository source.  Spec §3/§4.2: `capacity` fixed;
`in_use` granted slots with `0 ≤ in_use ≤ capacity`; a FIFO `queue` of
waiting requests; `acquire` grants immediately only when a slot is free and
nobody waits, otherwise enqueues; `release` returns the slot and, if a
waiter exists, transfers it at once to the longest-waiting requester. -/

/-- Resource-pool state: fixed capacity, granted-slot count (`in_use`) and
the FIFO queue of pending request ids. -/
structure PoolState where
  capacity : ℕ
  in_use : ℕ
  queue : List ℕ
deriving DecidableEq, Repr

/-- A fresh pool of capacity `c`. -/
def newPool (c : ℕ) : PoolState := { capacity := c, in_use := 0, queue := [] }

/-- Pool events: a new acquisition request (tagged with its issue id) or a
release by a current holder. -/
inductive PoolOp where
  | request (rid : ℕ)
  | release
deriving DecidableEq, Repr

/-- One pool transition.  Returns the successor state and the request id
granted a slot by this event, if any. -/
def poolStep (s : PoolState) (op : PoolOp) : PoolState × Option ℕ :=
  match op with
  | PoolOp.request rid =>
      if s.queue = [] ∧ s.in_use < s.capacity then
        ({ s with in_use := s.in_use + 1 }, some rid)
      else
        ({ s with queue := s.queue ++ [rid] }, none)
  | PoolOp.release =>
      match s.queue with
      | [] => ({ s with in_use := s.in_use - 1 }, none)
      | rid :: rest => ({ s with queue := rest }, some rid)

/-- The trajectory of a pool under a list of events: the state after each
event paired with the grant that event produced. -/
def poolExec (s : PoolState) : List PoolOp → List (PoolState × Option ℕ)
  | [] => []
  | op :: rest =>
      let r := poolStep s op
      r :: poolExec r.1 rest

/-- The request ids issued by a list of pool events, in issue order. -/
def reqIds : List PoolOp → List ℕ
  | [] => []
  | PoolOp.request rid :: rest => rid :: reqIds rest
  | PoolOp.release :: rest => reqIds rest

/-!
## Step characterisations and episode invariants
-/

/-- `monoStep` either rejects (credit failure: `stats` is unchanged, since
`errors += 0` is the identity) or completes, incrementing `completed` and
appending the cycle time in the same atomic transition. -/
lemma monoStep_eq (s : Stats) (p : MonoArrival) :
    monoStep s p =
      if p.f < FAILURE_PROB then s
      else
        { s with
            completed := s.completed + 1
            cycle_times := s.cycle_times ++ [p.g + p.d1 + p.d2 + p.d3 + p.d4 - p.a] } := by
  by_cases h : p.f < FAILURE_PROB <;> simp [monoStep, monolithic_process, newOrder, h]

/-- `rpaStep` either rejects (unchanged stats) or completes atomically. -/
lemma rpaStep_eq (s : Stats) (p : RpaArrival) :
    rpaStep s p =
      if p.f < FAILURE_PROB then s
      else
        { s with
            completed := s.completed + 1
            cycle_times := s.cycle_times ++ [p.g4 + p.d4 - p.a] } := by
  by_cases h : p.f < FAILURE_PROB <;> simp [rpaStep, rpa_process, newOrder, h]

/-- `masStep` rejects (unchanged stats), completes dirty (`errors` and
`completed` both incremented) or completes clean — in the last two cases the
cycle time is appended in the same atomic transition. -/
lemma masStep_eq (s : Stats) (p : MasArrival) :
    masStep s p =
      if p.f < FAILURE_PROB ∧ ¬ p.f2 < 3 / 5 then s
      else if p.f < FAILURE_PROB ∧ p.f2 < 3 / 5 then
        { s with
            errors := s.errors + 1
            completed := s.completed + 1
            cycle_times := s.cycle_times ++ [p.g1 + p.d1 + p.d2 - p.a] }
      else
        { s with
            completed := s.completed + 1
            cycle_times := s.cycle_times ++ [p.g1 + p.d1 + p.d2 - p.a] } := by
  by_cases h1 : p.f < FAILURE_PROB <;> by_cases h2 : p.f2 < 3 / 5 <;>
    simp [masStep, mas_process, newOrder, h1, h2]

/-- Any property preserved by `monoStep` holds at every point of a
Monolithic episode. -/
lemma monoEpisode_inv (P : Stats → Prop)
    (hstep : ∀ s p, P s → P (monoStep s p)) :
    ∀ (l : List MonoArrival) (s : Stats), P s → P (monoEpisode s l) := by
  intro l
  induction l with
  | nil => intro s hs; exact hs
  | cons p rest ih => intro s hs; exact ih (monoStep s p) (hstep s p hs)

/-- Any property preserved by `rpaStep` holds at every point of an RPA
episode. -/
lemma rpaEpisode_inv (P : Stats → Prop)
    (hstep : ∀ s p, P s → P (rpaStep s p)) :
    ∀ (l : List RpaArrival) (s : Stats), P s → P (rpaEpisode s l) := by
  intro l
  induction l with
  | nil => intro s hs; exact hs
  | cons p rest ih => intro s hs; exact ih (rpaStep s p) (hstep s p hs)

/-- Any property preserved by `masStep` holds at every point of a MAS
episode. -/
lemma masEpisode_inv (P : Stats → Prop)
    (hstep : ∀ s p, P s → P (masStep s p)) :
    ∀ (l : List MasArrival) (s : Stats), P s → P (masEpisode s l) := by
  intro l
  induction l with
  | nil => intro s hs; exact hs
  | cons p rest ih => intro s hs; exact ih (masStep s p) (hstep s p hs)

/-!
## Claims
-/

/-- Claim C3 counterexample: the recorded Monolithic cycle time is
`end_process_time - arrival_time`, which includes the time spent waiting
for the shared pool.  An order that arrives at 0, is granted the slot only
at 15 (e.g. capacity 1 with the previous order holding the slot), and draws
the maximal stage durations 15, 8, 12, 5 — all inside the stated uniform
ranges — records a cycle time of 55 > 40, refuting the claimed deterministic
upper bound. -/
theorem monolithic_cycle_time_exceeds_40 :
    (monolithic_process (newOrder 1 0 100) 15 15 (1 / 2) 8 12 5 initStats).2.1.cycle_times
        = [55] ∧
    ((5 : ℚ) ≤ 15 ∧ (15 : ℚ) ≤ 15) ∧ ((3 : ℚ) ≤ 8 ∧ (8 : ℚ) ≤ 8) ∧
    ((5 : ℚ) ≤ 12 ∧ (12 : ℚ) ≤ 12) ∧ ((2 : ℚ) ≤ 5 ∧ (5 : ℚ) ≤ 5) ∧
    ¬ (55 : ℚ) ≤ 40 := by
  refine ⟨?_, by norm_num⟩
  norm_num [monolithic_process, newOrder, initStats, FAILURE_PROB]

/-- Claim C3 (amended): for a completed Monolithic order the service time
`d1 + d2 + d3 + d4` is deterministically within [15, 40]; the recorded
cycle time is the queueing delay `g - arrival` plus that service time, so
it is always at least 15, is at most `40 + (g - arrival)`, and is at most
40 exactly when the pool grant is immediate (`g = arrival`). -/
theorem monolithic_cycle_time_bounds
    (o : Order) (g d1 f d2 d3 d4 : ℚ) (s : Stats)
    (hg : o.arrival_time ≤ g)
    (h1l : 5 ≤ d1) (h1u : d1 ≤ 15) (h2l : 3 ≤ d2) (h2u : d2 ≤ 8)
    (h3l : 5 ≤ d3) (h3u : d3 ≤ 12) (h4l : 2 ≤ d4) (h4u : d4 ≤ 5)
    (hf : ¬ f < FAILURE_PROB) :
    (monolithic_process o g d1 f d2 d3 d4 s).2.1.cycle_times =
        s.cycle_times ++ [g + d1 + d2 + d3 + d4 - o.arrival_time] ∧
    15 ≤ d1 + d2 + d3 + d4 ∧ d1 + d2 + d3 + d4 ≤ 40 ∧
    15 ≤ g + d1 + d2 + d3 + d4 - o.arrival_time ∧
    g + d1 + d2 + d3 + d4 - o.arrival_time ≤ 40 + (g - o.arrival_time) ∧
    (g = o.arrival_time → g + d1 + d2 + d3 + d4 - o.arrival_time ≤ 40) := by
  refine ⟨by simp [monolithic_process, hf], by linarith, by linarith, by linarith,
    by linarith, ?_⟩
  intro hga
  rw [hga]
  linarith

/-- Witness for C3's amended theorem: arrival 3, immediate grant, minimal
draws 5, 3, 5, 2 give the recorded cycle time 15. -/
theorem monolithic_cycle_time_bounds_witness :
    (monolithic_process (newOrder 1 3 100) 3 5 (1 / 2) 3 5 2 initStats).2.1.cycle_times =
        initStats.cycle_times ++ [3 + 5 + 3 + 5 + 2 - (newOrder 1 3 100).arrival_time] ∧
    15 ≤ (5 : ℚ) + 3 + 5 + 2 ∧ (5 : ℚ) + 3 + 5 + 2 ≤ 40 ∧
    15 ≤ 3 + 5 + 3 + 5 + 2 - (newOrder 1 3 100).arrival_time ∧
    3 + 5 + 3 + 5 + 2 - (newOrder 1 3 100).arrival_time ≤
        40 + (3 - (newOrder 1 3 100).arrival_time) ∧
    ((3 : ℚ) = (newOrder 1 3 100).arrival_time →
        3 + 5 + 3 + 5 + 2 - (newOrder 1 3 100).arrival_time ≤ 40) :=
  monolithic_cycle_time_bounds (newOrder 1 3 100) 3 5 (1 / 2) 3 5 2 initStats
    (by norm_num [newOrder]) (by norm_num) (by norm_num) (by norm_num) (by norm_num)
    (by norm_num) (by norm_num) (by norm_num) (by norm_num)
    (by norm_num [FAILURE_PROB])

/-- Claim C4: in every episode (stats evolve from the fresh accumulator by
the atomic terminal transitions, so quantifying over all transition lists
covers every point in simulated time) `errors` never exceeds `completed`;
the Monolithic and RPA models never change `errors` at all (it stays 0),
and a MAS transition increments `errors` only together with `completed`. -/
theorem episode_error_bounds :
    (∀ l : List MonoArrival, (monoEpisode initStats l).errors = 0) ∧
    (∀ l : List RpaArrival, (rpaEpisode initStats l).errors = 0) ∧
    (∀ l : List MonoArrival,
      (monoEpisode initStats l).errors ≤ (monoEpisode initStats l).completed) ∧
    (∀ l : List RpaArrival,
      (rpaEpisode initStats l).errors ≤ (rpaEpisode initStats l).completed) ∧
    (∀ l : List MasArrival,
      (masEpisode initStats l).errors ≤ (masEpisode initStats l).completed) ∧
    (∀ (s : Stats) (p : MasArrival),
      (masStep s p).errors = s.errors ∨
      ((masStep s p).errors = s.errors + 1 ∧
       (masStep s p).completed = s.completed + 1)) := by
  have hmono : ∀ l : List MonoArrival, (monoEpisode initStats l).errors = 0 := by
    intro l
    refine monoEpisode_inv (fun s => s.errors = 0) ?_ l initStats rfl
    intro s p hs
    rw [monoStep_eq]
    split <;> simpa using hs
  have hrpa : ∀ l : List RpaArrival, (rpaEpisode initStats l).errors = 0 := by
    intro l
    refine rpaEpisode_inv (fun s => s.errors = 0) ?_ l initStats rfl
    intro s p hs
    rw [rpaStep_eq]
    split <;> simpa using hs
  have hmas : ∀ l : List MasArrival,
      (masEpisode initStats l).errors ≤ (masEpisode initStats l).completed := by
    intro l
    refine masEpisode_inv (fun s => s.errors ≤ s.completed) ?_ l initStats (by simp [initStats])
    intro s p hs
    rw [masStep_eq]
    split
    · exact hs
    · split
      · simpa using Nat.succ_le_succ hs
      · simpa using hs.trans (Nat.le_succ _)
  refine ⟨hmono, hrpa, ?_, ?_, hmas, ?_⟩
  · intro l
    rw [hmono l]
    exact Nat.zero_le _
  · intro l
    rw [hrpa l]
    exact Nat.zero_le _
  · intro s p
    rw [masStep_eq]
    split
    · exact Or.inl rfl
    · split
      · exact Or.inr ⟨rfl, rfl⟩
      · exact Or.inl rfl

/-- Claim C1: the spec says each inter-arrival gap is an exponential draw
with mean `1/λ` (gap `1/5` at the default λ = 5).  The source calls
`random.expovariate(1.0 / λ)`, whose mean is `λ`: at λ = 5 and the uniform
draw `u = 1 - e⁻¹` (standard-exponential value 1) the code produces a gap
of 5 while the spec's distribution produces `1/5`; in general the code's
gap is `λ²` times the specified one.  The code contradicts its own
comments ("Poisson lambda"; λ = 8 labelled "High Stress" although it
lengthens the gaps), so this is a bug in the code, not in the claim. -/
theorem arrival_gap_has_mean_lambda_not_inverse :
    inter_arrival_gap 5 (1 - Real.exp (-1)) = 5 ∧
    spec_inter_arrival_gap 5 (1 - Real.exp (-1)) = 1 / 5 ∧
    ∀ u : ℝ, inter_arrival_gap 5 u = 25 * spec_inter_arrival_gap 5 u := by
  refine ⟨?_, ?_, ?_⟩
  · simp [inter_arrival_gap, expovariate, Real.log_exp]
  · simp [spec_inter_arrival_gap, expovariate, Real.log_exp]
  · intro u
    simp only [inter_arrival_gap, spec_inter_arrival_gap, expovariate]
    ring

/-- Claim C2 counterexample: with a valid capacity (10) and the
non-positive arrival rate 0, `run_simulation` construction succeeds — no
configuration error is raised, refuting "fails fast with a configuration
error" for non-positive arrival rates. -/
theorem run_simulation_setup_accepts_rate_zero :
    run_simulation_setup Mode.Monolithic 10 0 = Except.ok [10] := rfl

/-- Claim C2 (amended): `run_simulation` performs no configuration
validation of its own.  Construction is entirely independent of the
arrival rate (a non-positive rate is accepted and only misbehaves later,
during the run); a zero or negative capacity is rejected, but only by the
underlying resource library's capacity check at pool construction, not by
an Episode Runner configuration check. -/
theorem run_simulation_setup_no_validation (mode : Mode) (R : ℤ) (rate ratealt : ℚ) :
    run_simulation_setup mode R rate = run_simulation_setup mode R ratealt ∧
    (R ≤ 0 →
      run_simulation_setup Mode.Monolithic R rate = Except.error "capacity must be positive") ∧
    (0 < R → run_simulation_setup Mode.Monolithic R rate = Except.ok [R]) := by
  refine ⟨?_, ?_, ?_⟩
  · cases mode <;> rfl
  · intro h
    simp [run_simulation_setup, mkResource, h]
  · intro h
    simp [run_simulation_setup, mkResource, if_neg (not_le.mpr h)]

/-- Witness for C2's amended theorem at mode Monolithic, capacities 10 and
-3, rates 7 and 9. -/
theorem run_simulation_setup_no_validation_witness :
    run_simulation_setup Mode.Monolithic 10 7 = run_simulation_setup Mode.Monolithic 10 9 ∧
    run_simulation_setup Mode.Monolithic (-3) 7 = Except.error "capacity must be positive" ∧
    run_simulation_setup Mode.Monolithic 10 7 = Except.ok [10] :=
  ⟨(run_simulation_setup_no_validation Mode.Monolithic 10 7 9).1,
   (run_simulation_setup_no_validation Mode.Monolithic (-3) 7 9).2.1 (by norm_num),
   (run_simulation_setup_no_validation Mode.Monolithic 10 7 9).2.2 (by norm_num)⟩

/-- Claim C7 counterexample: with per-episode completed counts 1 and 2 the
emitted throughput field is `int(np.mean([1,2])) = 1`, while the arithmetic
mean is `3/2` — the field does not equal the mean. -/
theorem throughput_field_not_mean :
    throughput_field [1, 2] = 1 ∧
    npMean ([1, 2].map fun c : ℕ => (c : ℚ)) = 3 / 2 ∧
    ((1 : ℤ) : ℚ) ≠ 3 / 2 := by
  norm_num [throughput_field, npMean, pyInt]

/-- Claim C7 (amended): the throughput field equals the arithmetic mean of
the per-episode completed counts truncated to an integer — `int()` applied
to a nonnegative mean, i.e. its floor — so it sits within 1 below the
true mean rather than equalling it. -/
theorem throughput_field_eq_floor_mean (counts : List ℕ) (hne : counts ≠ []) :
    throughput_field counts = ⌊npMean (counts.map fun c : ℕ => (c : ℚ))⌋ ∧
    (throughput_field counts : ℚ) ≤ npMean (counts.map fun c : ℕ => (c : ℚ)) ∧
    npMean (counts.map fun c : ℕ => (c : ℚ)) < throughput_field counts + 1 := by
  have hnn : 0 ≤ npMean (counts.map fun c : ℕ => (c : ℚ)) := by
    unfold npMean
    apply div_nonneg
    · apply List.sum_nonneg
      intro x hx
      obtain ⟨c, _, rfl⟩ := List.mem_map.mp hx
      exact Nat.cast_nonneg c
    · exact Nat.cast_nonneg _
  have hfield : throughput_field counts = ⌊npMean (counts.map fun c : ℕ => (c : ℚ))⌋ := by
    unfold throughput_field pyInt
    rw [if_neg (not_lt.mpr hnn)]
  refine ⟨hfield, ?_, ?_⟩
  · rw [hfield]
    exact Int.floor_le _
  · rw [hfield]
    exact_mod_cast Int.lt_floor_add_one (npMean (counts.map fun c : ℕ => (c : ℚ)))

/-- Witness for C7's amended theorem at the two-episode count list [1, 2]. -/
theorem throughput_field_eq_floor_mean_witness :
    throughput_field [1, 2] = ⌊npMean ([1, 2].map fun c : ℕ => (c : ℚ))⌋ :=
  (throughput_field_eq_floor_mean [1, 2] (by simp)).1

/-- Claim C8 counterexample: at Monolithic capacity R = 4 the code sizes
each stage pool as `int(4/4) + 1 = 2`, but `⌈4/4⌉ = 1` — the capacity is
not `⌈R/4⌉` for every positive R. -/
theorem stage_pool_capacity_not_ceil :
    stage_pool_capacity 4 = 2 ∧ ⌈(4 : ℚ) / 4⌉ = 1 ∧ (2 : ℤ) ≠ 1 := by
  refine ⟨rfl, ?_, by norm_num⟩
  norm_num

/-- Claim C8 (amended): the Episode Runner for RPA/MAS builds the four
pools credit, inventory, fulfillment, billing, each of capacity
`⌊R/4⌋ + 1`; that equals `⌈R/4⌉` exactly when R is not a multiple of 4
(e.g. the default R = 10 gives 3) and exceeds it by one otherwise. -/
theorem stage_pools_floor_quarter_plus_one (R : ℕ) (hR : 0 < R) :
    run_simulation_pools R =
      [("credit", R / 4 + 1), ("inventory", R / 4 + 1),
       ("fulfillment", R / 4 + 1), ("billing", R / 4 + 1)] ∧
    (¬ 4 ∣ R → stage_pool_capacity R = (R + 3) / 4) ∧
    (4 ∣ R → stage_pool_capacity R = (R + 3) / 4 + 1) := by
  refine ⟨rfl, ?_, ?_⟩ <;> intro h <;> simp [stage_pool_capacity] <;> omega

/-- Witness for C8's amended theorem at the default capacity R = 10. -/
theorem stage_pools_floor_quarter_plus_one_witness :
    run_simulation_pools 10 =
      [("credit", 10 / 4 + 1), ("inventory", 10 / 4 + 1),
       ("fulfillment", 10 / 4 + 1), ("billing", 10 / 4 + 1)] ∧
    stage_pool_capacity 10 = (10 + 3) / 4 :=
  ⟨(stage_pools_floor_quarter_plus_one 10 (by norm_num)).1,
   (stage_pools_floor_quarter_plus_one 10 (by norm_num)).2.1 (by norm_num)⟩

/-- Claim C6: for an episode accumulator (every accumulator an episode can
produce satisfies `cycle_times.length = completed`, as the episode folds
above preserve it) the aggregation loop substitutes 0 for both the error
rate and the per-episode mean cycle time when `completed = 0` — the cycle
branch tests list emptiness, which the invariant ties to `completed = 0` —
and contributes `errors / completed × 100` whenever `completed > 0`. -/
theorem aggregator_zero_completion_policy (s : Stats)
    (hlen : s.cycle_times.length = s.completed) :
    (s.completed = 0 → episode_error_rate s = 0 ∧ episode_cycle_contrib s = 0) ∧
    (0 < s.completed →
      episode_error_rate s = ((s.errors : ℚ) / s.completed) * 100) := by
  constructor
  · intro h0
    constructor
    · simp [episode_error_rate, h0]
    · have hnil : s.cycle_times = [] := by
        apply List.eq_nil_of_length_eq_zero
        rw [hlen, h0]
      simp [episode_cycle_contrib, hnil]
  · intro hpos
    simp [episode_error_rate, hpos]

/-- Witness for C6 at the fresh accumulator (an episode with zero
completions) and at a two-completion accumulator. -/
theorem aggregator_zero_completion_policy_witness :
    (episode_error_rate initStats = 0 ∧ episode_cycle_contrib initStats = 0) ∧
    episode_error_rate { completed := 2, errors := 1, cycle_times := [20, 30] } =
      ((1 : ℚ) / 2) * 100 :=
  ⟨(aggregator_zero_completion_policy initStats rfl).1 rfl,
   (aggregator_zero_completion_policy
      { completed := 2, errors := 1, cycle_times := [20, 30] } rfl).2 (by norm_num)⟩

/-- Claim C9: a Rejected transition is a complete frame: in all three
process models the rejecting branch returns the statistics exactly as they
were (no `completed` increment, no `errors` increment, no cycle-time
append); in the Monolithic model the `with` block still releases the pool
slot and the order's `is_error` flag is untouched. -/
theorem rejected_transition_frame :
    (∀ (o : Order) (g d1 f d2 d3 d4 : ℚ) (s : Stats), f < FAILURE_PROB →
      (monolithic_process o g d1 f d2 d3 d4 s).2.1 = s ∧
      (monolithic_process o g d1 f d2 d3 d4 s).2.2 = true ∧
      (monolithic_process o g d1 f d2 d3 d4 s).1.is_error = o.is_error) ∧
    (∀ (o : Order) (g1 d1 f g2 d2 g3 d3 g4 d4 : ℚ) (s : Stats), f < FAILURE_PROB →
      (rpa_process o g1 d1 f g2 d2 g3 d3 g4 d4 s).2 = s) ∧
    (∀ (o : Order) (g1 d1 f f2 d2 : ℚ) (s : Stats), f < FAILURE_PROB → ¬ f2 < 3 / 5 →
      (mas_process o g1 d1 f f2 d2 s).2 = s) := by
  refine ⟨?_, ?_, ?_⟩
  · intro o g d1 f d2 d3 d4 s hf
    refine ⟨?_, ?_, ?_⟩ <;> simp [monolithic_process, hf]
  · intro o g1 d1 f g2 d2 g3 d3 g4 d4 s hf
    simp [rpa_process, hf]
  · intro o g1 d1 f f2 d2 s hf hf2
    simp [mas_process, hf, hf2]

/-- Witness for C9: concrete rejections (failure draw 0 < 0.10; MAS
override draw 9/10 ≥ 0.60) leave the fresh accumulator untouched. -/
theorem rejected_transition_frame_witness :
    (monolithic_process (newOrder 1 0 100) 0 7 0 4 6 3 initStats).2.1 = initStats ∧
    (rpa_process (newOrder 2 0 100) 0 5 0 0 3 0 5 0 2 initStats).2 = initStats ∧
    (mas_process (newOrder 3 0 100) 0 7 0 (9 / 10) 6 initStats).2 = initStats :=
  ⟨((rejected_transition_frame).1 (newOrder 1 0 100) 0 7 0 4 6 3 initStats
      (by norm_num [FAILURE_PROB])).1,
   (rejected_transition_frame).2.1 (newOrder 2 0 100) 0 5 0 0 3 0 5 0 2 initStats
      (by norm_num [FAILURE_PROB]),
   (rejected_transition_frame).2.2 (newOrder 3 0 100) 0 7 0 (9 / 10) 6 initStats
      (by norm_num [FAILURE_PROB]) (by norm_num)⟩

/-- Claim C10: at every point of every episode the number of recorded
cycle times equals `completed` — each terminal Done transition increments
`completed` by exactly one and appends exactly one cycle-time sample in the
same atomic transition (the source has no suspension point between the two
mutations, which is what makes the fold-over-transitions model exact), and
every other transition changes nothing. -/
theorem cycle_count_matches_completed :
    (∀ l : List MonoArrival,
      (monoEpisode initStats l).cycle_times.length = (monoEpisode initStats l).completed) ∧
    (∀ l : List RpaArrival,
      (rpaEpisode initStats l).cycle_times.length = (rpaEpisode initStats l).completed) ∧
    (∀ l : List MasArrival,
      (masEpisode initStats l).cycle_times.length = (masEpisode initStats l).completed) ∧
    (∀ (s : Stats) (p : MonoArrival),
      monoStep s p = s ∨
      ((monoStep s p).completed = s.completed + 1 ∧
       ∃ c, (monoStep s p).cycle_times = s.cycle_times ++ [c])) ∧
    (∀ (s : Stats) (p : RpaArrival),
      rpaStep s p = s ∨
      ((rpaStep s p).completed = s.completed + 1 ∧
       ∃ c, (rpaStep s p).cycle_times = s.cycle_times ++ [c])) ∧
    (∀ (s : Stats) (p : MasArrival),
      masStep s p = s ∨
      ((masStep s p).completed = s.completed + 1 ∧
       ∃ c, (masStep s p).cycle_times = s.cycle_times ++ [c])) := by
  refine ⟨?_, ?_, ?_, ?_, ?_, ?_⟩
  · intro l
    refine monoEpisode_inv (fun s => s.cycle_times.length = s.completed) ?_ l initStats rfl
    intro s p hs
    rw [monoStep_eq]
    split
    · exact hs
    · simpa using hs
  · intro l
    refine rpaEpisode_inv (fun s => s.cycle_times.length = s.completed) ?_ l initStats rfl
    intro s p hs
    rw [rpaStep_eq]
    split
    · exact hs
    · simpa using hs
  · intro l
    refine masEpisode_inv (fun s => s.cycle_times.length = s.completed) ?_ l initStats rfl
    intro s p hs
    rw [masStep_eq]
    split
    · exact hs
    · split <;> simpa using hs
  · intro s p
    rw [monoStep_eq]
    split
    · exact Or.inl rfl
    · exact Or.inr ⟨rfl, _, rfl⟩
  · intro s p
    rw [rpaStep_eq]
    split
    · exact Or.inl rfl
    · exact Or.inr ⟨rfl, _, rfl⟩
  · intro s p
    rw [masStep_eq]
    split
    · exact Or.inl rfl
    · split
      · exact Or.inr ⟨rfl, _, rfl⟩
      · exact Or.inr ⟨rfl, _, rfl⟩

/-- Claim C5: along any event trace on a pool whose pending queue and
future request ids respect issue order (ids are issued in strictly
increasing order, as the arrival generator's monotone `order_id` does),
every reachable state keeps `in_use ≤ capacity` (`0 ≤ in_use` holds in ℕ),
the pending queue stays in issue order, and every grant — an immediate
grant on request, which happens only when nobody is pending, or the
transfer to the queue head on release — goes to a request issued earlier
than every request still pending: a later request never jumps ahead of an
earlier one. -/
theorem pool_fifo_and_capacity_invariant :
    ∀ (ops : List PoolOp) (s : PoolState),
      s.in_use ≤ s.capacity →
      List.Pairwise (· < ·) (s.queue ++ reqIds ops) →
      ∀ r ∈ poolExec s ops,
        r.1.in_use ≤ r.1.capacity ∧
        List.Pairwise (· < ·) r.1.queue ∧
        ∀ gid q, r.2 = some gid → q ∈ r.1.queue → gid < q := by
  intro ops
  induction ops with
  | nil =>
    intro s hcap hord r hr
    simp [poolExec] at hr
  | cons op rest ih =>
    intro s hcap hord r hr
    rw [show poolExec s (op :: rest) =
          poolStep s op :: poolExec (poolStep s op).1 rest from rfl] at hr
    cases op with
    | request rid =>
      rw [show reqIds (PoolOp.request rid :: rest) = rid :: reqIds rest from rfl] at hord
      by_cases hc : s.queue = [] ∧ s.in_use < s.capacity
      · have hstep : poolStep s (PoolOp.request rid) =
            ({ s with in_use := s.in_use + 1 }, some rid) := by
          simp [poolStep, hc.1, hc.2]
        rw [hstep] at hr
        rcases List.mem_cons.mp hr with hhd | htl
        · subst hhd
          refine ⟨hc.2, ?_, ?_⟩
          · simp [hc.1]
          · intro gid q _ hq
            rw [hc.1] at hq
            simp at hq
        · apply ih { s with in_use := s.in_use + 1 } hc.2 ?_ r htl
          have : List.Pairwise (· < ·) (rid :: reqIds rest) := by
            rw [hc.1] at hord
            simpa using hord
          simpa [hc.1] using this.of_cons
      · have hstep : poolStep s (PoolOp.request rid) =
            ({ s with queue := s.queue ++ [rid] }, none) := by
          rw [poolStep]
          rw [if_neg hc]
        rw [hstep] at hr
        have hord2 : List.Pairwise (· < ·) ((s.queue ++ [rid]) ++ reqIds rest) := by
          rw [List.append_assoc]
          simpa using hord
        rcases List.mem_cons.mp hr with hhd | htl
        · subst hhd
          refine ⟨hcap, ?_, ?_⟩
          · exact hord2.sublist (List.sublist_append_left _ _)
          · intro gid q hg _
            cases hg
        · exact ih { s with queue := s.queue ++ [rid] } hcap hord2 r htl
    | release =>
      rw [show reqIds (PoolOp.release :: rest) = reqIds rest from rfl] at hord
      cases hq : s.queue with
      | nil =>
        have hstep : poolStep s PoolOp.release =
            ({ s with in_use := s.in_use - 1 }, none) := by
          simp [poolStep, hq]
        rw [hstep] at hr
        rcases List.mem_cons.mp hr with hhd | htl
        · subst hhd
          refine ⟨(Nat.sub_le _ _).trans hcap, ?_, ?_⟩
          · simp [hq]
          · intro gid q hg _
            cases hg
        · refine ih { s with in_use := s.in_use - 1 } ((Nat.sub_le _ _).trans hcap) ?_ r htl
          simpa using hord
      | cons hd tl =>
        have hstep : poolStep s PoolOp.release = ({ s with queue := tl }, some hd) := by
          simp [poolStep, hq]
        rw [hstep] at hr
        have hord3 : List.Pairwise (· < ·) (hd :: (tl ++ reqIds rest)) := by
          rw [hq] at hord
          simpa using hord
        rcases List.mem_cons.mp hr with hhd | htl
        · subst hhd
          refine ⟨hcap, ?_, ?_⟩
          · exact hord3.of_cons.sublist (List.sublist_append_left _ _)
          · intro gid q hg hqmem
            have hgid : gid = hd := by
              injection hg with h
              exact h.symm
            subst hgid
            exact (List.pairwise_cons.mp hord3).1 q (List.mem_append_left _ hqmem)
        · exact ih { s with queue := tl } hcap hord3.of_cons r htl

/-- Witness for C5: a capacity-1 pool with requests 1, 2 then two
releases; the second state (request 2 pending behind the holder) satisfies
the invariant. -/
theorem pool_fifo_and_capacity_invariant_witness :
    ({ capacity := 1, in_use := 1, queue := [2] } : PoolState).in_use ≤
      ({ capacity := 1, in_use := 1, queue := [2] } : PoolState).capacity ∧
    List.Pairwise (· < ·) ({ capacity := 1, in_use := 1, queue := [2] } : PoolState).queue :=
  ⟨(pool_fifo_and_capacity_invariant
      [PoolOp.request 1, PoolOp.request 2, PoolOp.release, PoolOp.release]
      (newPool 1) (by decide) (by decide)
      ({ capacity := 1, in_use := 1, queue := [2] }, none) (by decide)).1,
   (pool_fifo_and_capacity_invariant
      [PoolOp.request 1, PoolOp.request 2, PoolOp.release, PoolOp.release]
      (newPool 1) (by decide) (by decide)
      ({ capacity := 1, in_use := 1, queue := [2] }, none) (by decide)).2.1⟩

end ErpSim
